import Mathlib

/-!
Verification development for the `bsky-to-gem` post exporter
(`export_posts.py`).

The Python source is embedded shallowly:

* JSON values returned by HTTP endpoints are modelled by the inductive
  `Json`; Python attribute errors (calling `.get` on a non-dict, iterating
  a non-iterable) are modelled by `Except Unit`, where `.error ()` stands
  for an uncaught Python exception.
* Network calls are oracles (`String → Except Unit Json` for HTTP GET,
  a `Server` function for the paginated listing API).  An `.error` result
  of an oracle stands for `requests.exceptions.RequestException`
  (network error, HTTP error status, or a JSON parse failure, all of
  which the enclosing `try` in `fetch_did_document` catches).
* `sys.exit(1)` and a crash from an uncaught exception are both modelled
  as the outcome `ExportOutcome.exited 1` (a Python process terminates
  with status 1 in both cases).  The trim step has two crash paths that
  occur only after the main archive is on disk: `input()` raising
  `EOFError` in a non-interactive run, and the float division
  `excess_tokens / avg_tokens_per_post` raising `ZeroDivisionError` when
  the average (or the post count) is zero; `check_token_limit_and_offer_trim`
  therefore returns `Except`, and `export_posts_to_json` maps its
  `.error` to `exited 1` with the already-performed archive write kept
  in the write list.
* Binary floating point in `int(excess_tokens / avg_tokens_per_post * 1.1)`
  is abstracted to exact arithmetic: the truncation of
  `excess * 1.1 / avg` is `excess * 11 / (avg * 10)` in `Nat` division.
* File writes are recorded as a list of `(filename, contents)` pairs; the
  serialized JSON text itself is not modelled, files are identified with
  the post sequence they serialize.

Source functions keep their Python names (`fetch_did_document`,
`get_pds_endpoint_from_did_doc`, `check_token_limit_and_offer_trim`,
`trim_posts_and_reexport`, `export_posts_to_json`).

Note on the source layout: in the repository file the body of
`fetch_did_document` (lines 116-139) textually sits under a first,
shadowed `def export_posts_to_json` header; the embedding follows the
evident unit boundaries, which are also the ones the docstrings describe.
-/

/-- A JSON value, as returned by `requests.Response.json()`.  Objects are
association lists; Python dict lookup takes the first matching key. -/
inductive Json where
  | null : Json
  | bool (b : Bool) : Json
  | num (n : Int) : Json
  | str (s : String) : Json
  | arr (elems : List Json) : Json
  | obj (fields : List (String × Json)) : Json

/-- Python truthiness of a JSON value (`if x:`). -/
def truthy : Json → Bool
  | .null => false
  | .bool b => b
  | .num n => !(n == 0)
  | .str s => !(s == "")
  | .arr l => !l.isEmpty
  | .obj f => !f.isEmpty

/-- Python `str(x)` for the values that can occur in a service entry.
Container renderings are abbreviated (no claim depends on them). -/
def pyStr : Json → String
  | .str s => s
  | .num n => toString n
  | .bool true => "True"
  | .bool false => "False"
  | .null => "None"
  | .arr _ => "<list>"
  | .obj _ => "<dict>"

/-- Python `x == s` where `s` is a `str` literal: equality only between
strings, any other type compares unequal. -/
def jEqStr (j : Json) (s : String) : Bool :=
  match j with
  | .str t => t == s
  | _ => false

/-- Python `for x in j`: lists iterate their elements, strings their
one-character substrings, dicts their keys; other values raise
`TypeError` (modelled as `.error ()`). -/
def iterElems : Json → Except Unit (List Json)
  | .arr l => .ok l
  | .str s => .ok (s.data.map fun c => .str (String.mk [c]))
  | .obj f => .ok (f.map fun p => .str p.1)
  | _ => .error ()

/-- Whether a JSON value is an object (a Python dict). -/
def isObj : Json → Bool
  | .obj _ => true
  | _ => false

/-- The field list of a JSON object (and `[]` for non-objects; only used
under an `isObj` guard). -/
def toFields : Json → List (String × Json)
  | .obj f => f
  | _ => []

/-- Python `s.rstrip("/")`: remove every trailing slash. -/
def rstripSlash (s : String) : String :=
  String.mk ((s.data.reverse.dropWhile fun c => c == '/').reverse)

/-- Python `s.replace(":", "/")`: replace every colon by a slash
(a one-character pattern makes `replace` a character map). -/
def colonsToSlashes (s : String) : String :=
  String.mk (s.data.map fun c => if c == ':' then '/' else c)

/-- Python `s.startswith(pre)`. -/
def pyStartsWith (s pre : String) : Bool :=
  pre.data.isPrefixOf s.data

/-- Python `s.endswith(post)`. -/
def pyEndsWith (s post : String) : Bool :=
  post.data.isSuffixOf s.data

/-- Split a character list at the first occurrence of `c`, if any. -/
def splitOnce (c : Char) : List Char → Option (List Char × List Char)
  | [] => none
  | x :: xs =>
    if x == c then some ([], xs)
    else
      match splitOnce c xs with
      | some (pre, post) => some (x :: pre, post)
      | none => none

/-- Python `s.split(":", 2)[2]`: the text after the second colon
(`none` when the string has fewer than two colons, where Python would
raise `IndexError`; the call site guards with `startswith("did:web:")`,
which guarantees two colons). -/
def pySplit2Tail (s : String) : Option String :=
  match splitOnce ':' s.data with
  | none => none
  | some (_, r1) =>
    match splitOnce ':' r1 with
    | none => none
    | some (_, r2) => some (String.mk r2)

/-- The well-known-document URL derived from a `did:web` identifier:
`domain = did.split(":", 2)[2]` with colons converted to slashes, then
`https://<domain>/.well-known/did.json`. -/
def didWebUrl (did : String) : String :=
  "https://" ++ colonsToSlashes ((pySplit2Tail did).getD "") ++ "/.well-known/did.json"

/-- `fetch_did_document(did)`: fetch the DID document of a `did:plc` or
`did:web` DID through the HTTP oracle; any request failure (the only
exceptions the `try` catches) and any unrecognized scheme yield `none`. -/
def fetch_did_document (http : String → Except Unit Json) (did : String) : Option Json :=
  if pyStartsWith did "did:plc:" then
    match http ("https://plc.directory/" ++ did) with
    | .ok j => some j
    | .error _ => none
  else if pyStartsWith did "did:web:" then
    match http (didWebUrl did) with
    | .ok j => some j
    | .error _ => none
  else
    none

/-- The service list chosen by
`did_doc.get("service") or did_doc.get("services") or []`
(Python `or`: first truthy operand; a missing key yields `None`, falsy). -/
def chosenServices (fields : List (String × Json)) : Json :=
  match fields.lookup "service" with
  | some j =>
    if truthy j then j
    else
      match fields.lookup "services" with
      | some j2 => if truthy j2 then j2 else .arr []
      | none => .arr []
  | none =>
    match fields.lookup "services" with
    | some j2 => if truthy j2 then j2 else .arr []
    | none => .arr []

/-- The `for svc in services` loop of `get_pds_endpoint_from_did_doc`:
an entry that is not a dict raises `AttributeError` at `svc.get`
(`.error ()`); a matching entry whose `serviceEndpoint` is a non-empty
string is returned with trailing slashes stripped; a matching entry
without a usable endpoint is skipped and the scan continues. -/
def scanServices : List Json → Except Unit (Option String)
  | [] => .ok none
  | svc :: rest =>
    match svc with
    | .obj sf =>
      let sid := pyStr ((sf.lookup "id").getD (.str ""))
      let stype := (sf.lookup "type").getD (.str "")
      if pyEndsWith sid "#atproto_pds" || jEqStr stype "AtprotoPersonalDataServer" then
        match sf.lookup "serviceEndpoint" with
        | some (.str e) => if e == "" then scanServices rest else .ok (some (rstripSlash e))
        | _ => scanServices rest
      else
        scanServices rest
    | _ => .error ()

/-- `get_pds_endpoint_from_did_doc(did_doc)`: `None` for a falsy document;
otherwise read the service list and scan it.  Calling `.get` on a truthy
non-dict raises (`.error ()`), as does iterating a non-iterable service
value or scanning a non-dict entry. -/
def get_pds_endpoint_from_did_doc (did_doc : Json) : Except Unit (Option String) :=
  if truthy did_doc = false then .ok none
  else
    match did_doc with
    | .obj fields =>
      match iterElems (chosenServices fields) with
      | .error _ => .error ()
      | .ok elems => scanServices elems
    | _ => .error ()

/-- Spec-side reading of one service entry: does it match (its id ends
with `#atproto_pds`, or its type is `AtprotoPersonalDataServer`)? -/
def matchesEntry (sf : List (String × Json)) : Bool :=
  pyEndsWith (pyStr ((sf.lookup "id").getD (.str ""))) "#atproto_pds" ||
    jEqStr ((sf.lookup "type").getD (.str "")) "AtprotoPersonalDataServer"

/-- Spec-side reading of one service entry: its usable endpoint URL
(a non-empty string), if any. -/
def usableEndpoint (sf : List (String × Json)) : Option String :=
  match sf.lookup "serviceEndpoint" with
  | some (.str e) => if e == "" then none else some e
  | _ => none

/-- Modelled from the amended specification sentence: the endpoint, with
trailing slashes stripped, of the first service entry that both matches
and has a usable URL. -/
def specFirstUsable (entries : List (List (String × Json))) : Option String :=
  match entries.find? (fun sf => matchesEntry sf && (usableEndpoint sf).isSome) with
  | some sf => (usableEndpoint sf).map rstripSlash
  | none => none

/-- One image attachment of a normalized post. -/
structure NormalizedImage where
  url : String
  alt_text : String
deriving DecidableEq

/-- A normalized post, the unit of the output archive. -/
structure NormalizedPost where
  created_at : String
  text : String
  images : List NormalizedImage
deriving DecidableEq

/-- The blob reference of an embedded image (`image.image`); `cid` is its
content identifier. -/
structure BlobRef where
  cid : String
deriving DecidableEq

/-- One entry of `record.value.embed.images`.  `image` and `alt` are
`Option`s: an absent attribute raises `AttributeError` when accessed. -/
structure EmbedImage where
  image : Option BlobRef
  alt : Option String
deriving DecidableEq

/-- The embed of a raw record; `py_type` is read with
`getattr(..., "py_type", "")`, which never raises. -/
structure Embed where
  py_type : String
  images : List EmbedImage
deriving DecidableEq

/-- `record.value`: `created_at` and `text` are accessed as attributes
(absent attribute raises); `embed` is tested with `hasattr` and
truthiness first, so `none` covers both an absent and a `None` embed. -/
structure RecordValue where
  created_at : Option String
  text : Option String
  embed : Option Embed
deriving DecidableEq

/-- A raw post record from `list_records`. -/
structure RawRecord where
  value : RecordValue
deriving DecidableEq

/-- One response of the listing API: `response.records` and
`response.cursor` (read with `getattr(..., None)`, missing attributes
behave as empty/`None`). -/
structure Page where
  records : List RawRecord
  cursor : Option String
deriving DecidableEq

/-- Which client object is in use: the default public client created
first, or a client targeted at a discovered PDS base URL.  `custom u`
is a distinct object from the default client even if `u` is the default
host, matching the `client is not default_client` identity test. -/
inductive Endpoint where
  | default : Endpoint
  | custom (base_url : String) : Endpoint
deriving DecidableEq

/-- The listing API as an oracle: a page, or a raised request error,
for each (client, cursor) pair. -/
def Server : Type := Endpoint → Option String → Except Unit Page

/-- The mutable state of the fetch loop. -/
structure FetchState where
  client : Endpoint
  pds_endpoint : Option String
  cursor : Option String
  posts_fetched : Nat
  all_posts : List NormalizedPost
deriving DecidableEq

/-- How the `while True` loop ends: `break` with the accumulated posts,
or `sys.exit(1)` after printing a diagnostic. -/
inductive LoopResult where
  | done (posts : List NormalizedPost) : LoopResult
  | exit1 (diagnostic : String) : LoopResult
deriving DecidableEq

/-- Python truthiness of an optional string (`if pds_endpoint:`,
`if not cursor:`): `None` and the empty string are falsy. -/
def optTruthy : Option String → Bool
  | none => false
  | some s => !(s == "")

/-- The image CDN base used to build image URLs. -/
def imageCdnBase : String := "https://cdn.bsky.app/img/feed_fullsize/plain"

/-- The diagnostic printed when the default public endpoint returns an
empty first page (lines 225-226 of the source), before `sys.exit(1)`. -/
def noPostsDiagnostic : String :=
  "No posts found at the public resolver. The account may be hosted on a different PDS."

/-- Expand the images of a matching embed: each image contributes
`{url: <cdn>/<did>/<cid>@jpeg, alt_text: image.alt}`; an absent blob
reference or alt text raises. -/
def normalizeImages (did : String) : List EmbedImage → Except Unit (List NormalizedImage)
  | [] => .ok []
  | img :: rest =>
    match img.image with
    | none => .error ()
    | some blob =>
      match img.alt with
      | none => .error ()
      | some altText =>
        match normalizeImages did rest with
        | .error e => .error e
        | .ok tail =>
          .ok ({ url := imageCdnBase ++ "/" ++ did ++ "/" ++ blob.cid ++ "@jpeg",
                 alt_text := altText } :: tail)

/-- Normalize one raw record into a `NormalizedPost` (the body of the
`for record in response.records` loop); any absent field raises. -/
def normalizeRecord (did : String) (r : RawRecord) : Except Unit NormalizedPost :=
  match r.value.created_at with
  | none => .error ()
  | some createdAt =>
    match r.value.text with
    | none => .error ()
    | some text =>
      let images : Except Unit (List NormalizedImage) :=
        match r.value.embed with
        | some e =>
          if e.py_type == "app.bsky.embed.images" then normalizeImages did e.images
          else .ok []
        | none => .ok []
      match images with
      | .error e => .error e
      | .ok imgs => .ok { created_at := createdAt, text := text, images := imgs }

/-- Run the record loop over one page, appending each normalized post to
the accumulator.  On an exception the posts appended so far persist
(`all_posts.append` ran before the raise), so the error carries the
partial accumulator. -/
def appendRecords (did : String) (acc : List NormalizedPost) :
    List RawRecord → Except (List NormalizedPost) (List NormalizedPost)
  | [] => .ok acc
  | r :: rs =>
    match normalizeRecord did r with
    | .ok p => appendRecords did (acc ++ [p]) rs
    | .error _ => .error acc

/-- The shared `except Exception` handler of the fetch loop: fall back to
the default client once (keeping the cursor, clearing `pds_endpoint`) if
a discovered endpoint is in use, otherwise `sys.exit(1)`. -/
def handleFetchError (s : FetchState) (keptPosts : List NormalizedPost) :
    FetchState ⊕ LoopResult :=
  if optTruthy s.pds_endpoint && !(s.client == Endpoint.default) then
    .inl { client := .default, pds_endpoint := none, cursor := s.cursor,
           posts_fetched := s.posts_fetched, all_posts := keptPosts }
  else
    .inr (.exit1 "Error fetching posts")

/-- One iteration of the `while True` fetch loop: `.inl` re-enters the
loop with the new state, `.inr` leaves it (`break` or `sys.exit(1)`). -/
def fetchStep (did : String) (server : Server) (s : FetchState) :
    FetchState ⊕ LoopResult :=
  match server s.client s.cursor with
  | .error _ => handleFetchError s s.all_posts
  | .ok page =>
    if page.records.isEmpty && s.posts_fetched == 0 then
      if optTruthy s.pds_endpoint then .inr (.done s.all_posts)
      else .inr (.exit1 noPostsDiagnostic)
    else
      match appendRecords did s.all_posts page.records with
      | .error keptPosts => handleFetchError s keptPosts
      | .ok newPosts =>
        let fetched := s.posts_fetched + page.records.length
        if optTruthy page.cursor then
          .inl { client := s.client, pds_endpoint := s.pds_endpoint,
                 cursor := page.cursor, posts_fetched := fetched, all_posts := newPosts }
        else
          .inr (.done newPosts)

/-- Run the fetch loop with fuel (the loop need not terminate against an
adversarial server; `none` is fuel exhaustion).  The second `Nat` counts
how many iterations changed the client object, i.e. endpoint switches. -/
def runFetch (did : String) (server : Server) :
    Nat → FetchState → Nat → Option (LoopResult × Nat)
  | 0, _, _ => none
  | fuel + 1, s, k =>
    match fetchStep did server s with
    | .inr r => some (r, k)
    | .inl s' => runFetch did server fuel s' (if s'.client == s.client then k else k + 1)

/-- The sort at line 269 of the source:
`all_posts.sort(key=lambda x: x['created_at'], reverse=True)`.
Python list.sort is stable, and `reverse=True` keeps elements with equal
keys in their original order, so it is extensionally the stable
insertion sort under the relation "my key is at least yours". -/
def sortByCreatedAtDesc (posts : List NormalizedPost) : List NormalizedPost :=
  posts.insertionSort fun a b => b.created_at ≤ a.created_at

/-- The token limit checked by the trimmer (95% of one million). -/
def TOKEN_LIMIT : Nat := 950000

/-- The arithmetic of `check_token_limit_and_offer_trim` (lines 56-59):
`excess = count - limit`, `avg = count // total`,
`to_remove = int(excess / avg * 1.1)` (exact arithmetic:
`excess * 11 / (avg * 10)` with floor division),
`to_keep = total - to_remove`.  Returns `(to_remove, to_keep)`.
In the source both divisions raise `ZeroDivisionError` when their
divisor is zero; that crash is modelled by the guards in
`check_token_limit_and_offer_trim`, which invokes this arithmetic only
when `total_posts` and `avg` are non-zero (and `C4_trim_arithmetic`
carries the matching hypothesis). -/
def trimCalc (token_count total_posts : Nat) : Nat × Nat :=
  let excess_tokens := token_count - TOKEN_LIMIT
  let avg_tokens_per_post := token_count / total_posts
  let posts_to_remove := excess_tokens * 11 / (avg_tokens_per_post * 10)
  (posts_to_remove, total_posts - posts_to_remove)

/-- The external collaborators and environment of one program run:
handle resolution, HTTP GET, the listing server, the timestamp
`datetime.now().strftime(...)`, the token estimator (on the archive
contents; `none` is an unavailable estimator), and the outcome of the
interactive trim prompt: `some b` is the eventual validated y/n answer
(the `while True` loop re-prompts on any other text), `none` means
`input()` raised — `EOFError` on a closed or non-interactive stdin —
which the surrounding code does not catch. -/
structure World where
  resolveHandle : String → Except Unit String
  http : String → Except Unit Json
  server : Server
  now : String
  tokenCount : List NormalizedPost → Option Nat
  confirmTrim : Option Bool

/-- `trim_posts_and_reexport`: keep the newest `posts_to_keep` posts
(the list is already newest-first), write them to a `_trimmed` file and
return its name together with the write performed. -/
def trim_posts_and_reexport (w : World) (all_posts : List NormalizedPost)
    (posts_to_keep : Nat) (handle : String) :
    String × List (String × List NormalizedPost) :=
  let trimmed := all_posts.take posts_to_keep
  let trimmed_filename := handle ++ "_posts_" ++ w.now ++ "_trimmed.json"
  (trimmed_filename, [(trimmed_filename, trimmed)])

/-- `check_token_limit_and_offer_trim`: estimate the archive's tokens
(an unavailable estimator keeps the file as is), compare against
`TOKEN_LIMIT`, and on operator confirmation re-export a trimmed file.
`.ok` carries the final filename and the extra writes performed;
`.error ()` is an uncaught exception crashing the process: the
`ZeroDivisionError` from `token_count // len(all_posts)` on an empty
list, the `ZeroDivisionError` from `excess_tokens / avg_tokens_per_post`
when the average is zero, or the `EOFError` from `input()` when stdin
is closed.  All three happen after the caller already wrote the main
archive. -/
def check_token_limit_and_offer_trim (w : World) (filename : String)
    (all_posts : List NormalizedPost) (handle : String) :
    Except Unit (String × List (String × List NormalizedPost)) :=
  match w.tokenCount all_posts with
  | none => .ok (filename, [])
  | some token_count =>
    if token_count ≤ TOKEN_LIMIT then .ok (filename, [])
    else if all_posts.length == 0 then .error ()
    else if token_count / all_posts.length == 0 then .error ()
    else
      let posts_to_keep := (trimCalc token_count all_posts.length).2
      match w.confirmTrim with
      | none => .error ()
      | some true => .ok (trim_posts_and_reexport w all_posts posts_to_keep handle)
      | some false => .ok (filename, [])

/-- How one call of `export_posts_to_json` ends: process termination
(`sys.exit(1)`, or status 1 from an uncaught exception), or a normal
return of the final filename. -/
inductive ExportOutcome where
  | exited (code : Nat) : ExportOutcome
  | finished (finalFilename : String) : ExportOutcome
deriving DecidableEq

/-- Lines 176-186 of the source: fetch the DID document and extract the
PDS endpoint for the run — `none` when the document could not be fetched
or is falsy, otherwise the extraction result (whose uncaught
`AttributeError` crash propagates, there is no `try` around it). -/
def discoverEndpoint (http : String → Except Unit Json) (repo_did : String) :
    Except Unit (Option String) :=
  match fetch_did_document http repo_did with
  | some j => if truthy j then get_pds_endpoint_from_did_doc j else .ok none
  | none => .ok none

/-- `export_posts_to_json(handle)`: resolve the handle, discover the PDS
endpoint from the DID document (soft-failing to the default client),
run the paginated fetch loop, and on success sort and write the archive,
then offer trimming.  A crash inside the trim step terminates the
process with status 1, but only after the main archive write already
happened, so that write stays in the list.  The returned list records
every file write in order; `none` is fetch-loop fuel exhaustion. -/
def export_posts_to_json (w : World) (fuel : Nat) (handle : String) :
    Option (ExportOutcome × List (String × List NormalizedPost)) :=
  match w.resolveHandle handle with
  | .error _ => some (.exited 1, [])
  | .ok repo_did =>
    match discoverEndpoint w.http repo_did with
    | .error _ => some (.exited 1, [])
    | .ok pds_endpoint =>
      let client : Endpoint :=
        if optTruthy pds_endpoint then .custom (pds_endpoint.getD "") else .default
      let output_filename := handle ++ "_posts_" ++ w.now ++ ".json"
      let s0 : FetchState :=
        { client := client, pds_endpoint := pds_endpoint, cursor := none,
          posts_fetched := 0, all_posts := [] }
      match runFetch repo_did w.server fuel s0 0 with
      | none => none
      | some (.exit1 _, _) => some (.exited 1, [])
      | some (.done posts, _) =>
        if posts.isEmpty then some (.exited 1, [])
        else
          let sorted := sortByCreatedAtDesc posts
          match check_token_limit_and_offer_trim w output_filename sorted handle with
          | .error _ => some (.exited 1, [(output_filename, sorted)])
          | .ok checked => some (.finished checked.1, (output_filename, sorted) :: checked.2)

/-- The `__main__` block: with no handle argument print usage and exit 1;
otherwise call `export_posts_to_json(handle)` at line 300 (result
discarded) and again at line 303.  A `sys.exit` inside either call
terminates the process with that status; a run that reaches the end of
the script exits 0.  Returns the exit status and all file writes. -/
def mainProgram (w : World) (fuel : Nat) (argv : List String) :
    Option (Nat × List (String × List NormalizedPost)) :=
  if argv.length < 2 then some (1, [])
  else
    let handle := argv.getD 1 ""
    match export_posts_to_json w fuel handle with
    | none => none
    | some (.exited c, ws1) => some (c, ws1)
    | some (.finished _, ws1) =>
      match export_posts_to_json w fuel handle with
      | none => none
      | some (.exited c, ws2) => some (c, ws1 ++ ws2)
      | some (.finished _, ws2) => some (0, ws1 ++ ws2)

/-! ### Helper lemmas -/

/-- Unfolding `specFirstUsable` one entry at a time. -/
lemma specFirstUsable_cons (sf : List (String × Json)) (l : List (List (String × Json))) :
    specFirstUsable (sf :: l)
      = if matchesEntry sf && (usableEndpoint sf).isSome
        then (usableEndpoint sf).map rstripSlash
        else specFirstUsable l := by
  unfold specFirstUsable
  rw [List.find?_cons]
  cases h : (matchesEntry sf && (usableEndpoint sf).isSome) <;> simp [h]

/-- On a list of dict entries, the scan of the source equals the
spec-side "first matching entry with a usable URL" reading. -/
lemma scanServices_wf : ∀ elems : List Json, elems.all isObj = true →
    scanServices elems = .ok (specFirstUsable (elems.map toFields))
  | [], _ => by simp [scanServices, specFirstUsable]
  | svc :: rest, hall => by
    rw [List.all_cons, Bool.and_eq_true] at hall
    obtain ⟨hobj, hrest⟩ := hall
    cases svc with
    | obj sf =>
      rw [List.map_cons]
      show scanServices (Json.obj sf :: rest) = _
      rw [show toFields (Json.obj sf) = sf from rfl, specFirstUsable_cons]
      by_cases hm : matchesEntry sf
      · simp only [scanServices, hm]
        rw [show (pyEndsWith (pyStr ((sf.lookup "id").getD (.str ""))) "#atproto_pds" ||
              jEqStr ((sf.lookup "type").getD (.str "")) "AtprotoPersonalDataServer")
            = matchesEntry sf from rfl, hm]
        simp only [if_true]
        cases hep : sf.lookup "serviceEndpoint" with
        | none =>
          have hu : usableEndpoint sf = none := by simp [usableEndpoint, hep]
          simp [hu, hep, scanServices_wf rest hrest]
        | some v =>
          cases v with
          | str e =>
            by_cases he : e == ""
            · have hu : usableEndpoint sf = none := by simp [usableEndpoint, hep, he]
              simp [hu, hep, he, scanServices_wf rest hrest]
            · have hu : usableEndpoint sf = some e := by
                simp only [usableEndpoint, hep]
                exact if_neg he
              simp [hu, hep, he]
          | null =>
            have hu : usableEndpoint sf = none := by simp [usableEndpoint, hep]
            simp [hu, hep, scanServices_wf rest hrest]
          | bool b =>
            have hu : usableEndpoint sf = none := by simp [usableEndpoint, hep]
            simp [hu, hep, scanServices_wf rest hrest]
          | num n =>
            have hu : usableEndpoint sf = none := by simp [usableEndpoint, hep]
            simp [hu, hep, scanServices_wf rest hrest]
          | arr l2 =>
            have hu : usableEndpoint sf = none := by simp [usableEndpoint, hep]
            simp [hu, hep, scanServices_wf rest hrest]
          | obj f2 =>
            have hu : usableEndpoint sf = none := by simp [usableEndpoint, hep]
            simp [hu, hep, scanServices_wf rest hrest]
      · simp only [scanServices]
        rw [show (pyEndsWith (pyStr ((sf.lookup "id").getD (.str ""))) "#atproto_pds" ||
              jEqStr ((sf.lookup "type").getD (.str "")) "AtprotoPersonalDataServer")
            = matchesEntry sf from rfl]
        simp [hm, scanServices_wf rest hrest]
    | null => simp [isObj] at hobj
    | bool b => simp [isObj] at hobj
    | num n => simp [isObj] at hobj
    | str s => simp [isObj] at hobj
    | arr l2 => simp [isObj] at hobj

/-- The head of a `dropWhile` run fails the predicate. -/
lemma head?_dropWhile_not (p : Char → Bool) :
    ∀ (l : List Char) (c : Char), (l.dropWhile p).head? = some c → p c = false := by
  intro l
  induction l with
  | nil => intro c h; simp at h
  | cons a as ih =>
    intro c h
    cases hp : p a with
    | true => rw [List.dropWhile_cons_of_pos hp] at h; exact ih c h
    | false =>
      rw [List.dropWhile_cons_of_neg (by simp [hp])] at h
      simp at h
      rw [← h]; exact hp

/-- `rstrip("/")` leaves no trailing slash. -/
lemma rstripSlash_no_trailing (e : String) :
    (rstripSlash e).data.getLast? ≠ some '/' := by
  intro hcontra
  have h1 : (rstripSlash e).data
      = ((e.data.reverse.dropWhile fun c => c == '/').reverse) := rfl
  rw [h1, List.getLast?_reverse] at hcontra
  have := head?_dropWhile_not (fun c => c == '/') e.data.reverse '/' hcontra
  simp at this

/-- A successful scan result always came through `rstrip("/")`. -/
lemma scanServices_some_rstrip :
    ∀ (elems : List Json) (r : String), scanServices elems = .ok (some r) →
      ∃ e, r = rstripSlash e := by
  intro elems
  induction elems with
  | nil => intro r h; simp [scanServices] at h
  | cons svc rest ih =>
    intro r h
    cases svc with
    | obj sf =>
      simp only [scanServices] at h
      split at h
      case isTrue =>
        split at h
        all_goals try exact ih r h
        all_goals
          split at h
          · exact ih r h
          · injection h with h1
            injection h1 with h2
            exact ⟨_, h2.symm⟩
      case isFalse => exact ih r h
    | null => simp [scanServices] at h
    | bool b => simp [scanServices] at h
    | num n => simp [scanServices] at h
    | str s => simp [scanServices] at h
    | arr l2 => simp [scanServices] at h

/-- The descending-by-`created_at` relation the archive sort uses. -/
def descCreated (a b : NormalizedPost) : Prop := b.created_at ≤ a.created_at

instance : DecidableRel descCreated := fun a b =>
  inferInstanceAs (Decidable (b.created_at ≤ a.created_at))

/-- Filtering one timestamp class commutes with `orderedInsert` under the
descending relation: an inserted element of the class lands in front of
the class (the skipped elements have strictly larger keys), and an
element outside the class leaves it untouched. -/
lemma filter_orderedInsert_created (k : String) (a : NormalizedPost) :
    ∀ l : List NormalizedPost,
      (l.orderedInsert descCreated a).filter (fun p => p.created_at == k)
        = if a.created_at == k
          then a :: l.filter (fun p => p.created_at == k)
          else l.filter (fun p => p.created_at == k) := by
  intro l
  induction l with
  | nil =>
    by_cases hp : (a.created_at == k) = true <;>
      simp [List.orderedInsert, List.filter, hp]
  | cons b bs ih =>
    by_cases hr : descCreated a b
    · rw [List.orderedInsert_of_le _ _ hr]
      by_cases hp : (a.created_at == k) = true <;>
        simp [List.filter, hp]
    · have hob : (b :: bs).orderedInsert descCreated a
          = b :: bs.orderedInsert descCreated a := by
        simp only [List.orderedInsert, if_neg hr]
      rw [hob]
      by_cases hp : (a.created_at == k) = true
      · have hpb : (b.created_at == k) = false := by
          rw [beq_iff_eq] at hp
          rw [beq_eq_false_iff_ne]
          intro hbk
          exact hr (le_of_eq (by rw [hp, hbk]))
        rw [if_pos hp] at ih ⊢
        simp only [List.filter, hpb, ih]
      · rw [if_neg hp] at ih ⊢
        cases hpb : (b.created_at == k) <;>
          simp only [List.filter, hpb, ih]

/-- Stability of the archive sort: each timestamp class of the sorted
output is exactly the corresponding class of the input, in order. -/
lemma filter_sortByCreatedAtDesc (k : String) :
    ∀ l : List NormalizedPost,
      (sortByCreatedAtDesc l).filter (fun p => p.created_at == k)
        = l.filter (fun p => p.created_at == k) := by
  intro l
  induction l with
  | nil => rfl
  | cons a l ih =>
    show ((l.insertionSort descCreated).orderedInsert descCreated a).filter _ = _
    rw [filter_orderedInsert_created]
    by_cases hp : (a.created_at == k) = true
    · rw [if_pos hp]
      show a :: (sortByCreatedAtDesc l).filter _ = _
      rw [ih]
      simp [List.filter, hp]
    · rw [if_neg hp]
      show (sortByCreatedAtDesc l).filter _ = _
      rw [ih]
      simp [List.filter, hp]

/-- The archive sort output is sorted: `created_at` is non-increasing. -/
lemma sorted_sortByCreatedAtDesc (l : List NormalizedPost) :
    List.Sorted descCreated (sortByCreatedAtDesc l) := by
  haveI : IsTotal NormalizedPost descCreated :=
    ⟨fun a b => le_total b.created_at a.created_at⟩
  haveI : IsTrans NormalizedPost descCreated :=
    ⟨fun _ _ _ hab hbc => le_trans hbc hab⟩
  exact List.sorted_insertionSort descCreated l

/-- A loop iteration either keeps the client and the discovered endpoint
unchanged, or performs the fallback: it moves from a non-default client
with a truthy discovered endpoint to the default client, clearing
`pds_endpoint` and keeping the cursor. -/
lemma fetchStep_client_change (did : String) (server : Server) (s s' : FetchState)
    (h : fetchStep did server s = .inl s') :
    (s'.client = s.client ∧ s'.pds_endpoint = s.pds_endpoint)
    ∨ (s'.client = .default ∧ s'.pds_endpoint = none ∧ s'.cursor = s.cursor
        ∧ s.client ≠ .default ∧ optTruthy s.pds_endpoint = true) := by
  cases hsrv : server s.client s.cursor with
  | error e =>
    simp only [fetchStep, hsrv, handleFetchError] at h
    split at h
    · next hcond =>
        rw [Bool.and_eq_true] at hcond
        cases h
        refine .inr ⟨rfl, rfl, rfl, ?_, hcond.1⟩
        intro hdef
        have h2 := hcond.2
        rw [hdef] at h2
        simp at h2
    · simp at h
  | ok page =>
    simp only [fetchStep, hsrv] at h
    split at h
    · split at h <;> simp at h
    · cases happ : appendRecords did s.all_posts page.records with
      | error kept =>
        simp only [happ, handleFetchError] at h
        split at h
        · next hcond =>
            rw [Bool.and_eq_true] at hcond
            cases h
            refine .inr ⟨rfl, rfl, rfl, ?_, hcond.1⟩
            intro hdef
            have h2 := hcond.2
            rw [hdef] at h2
            simp at h2
        · simp at h
      | ok newPosts =>
        simp only [happ] at h
        split at h
        · cases h
          exact .inl ⟨rfl, rfl⟩
        · simp at h

/-- Once the loop uses the default client it never switches again: the
switch counter is frozen. -/
lemma runFetch_default_frozen (did : String) (server : Server) :
    ∀ (fuel : Nat) (s : FetchState) (k : Nat) (r : LoopResult) (k' : Nat),
      s.client = .default → runFetch did server fuel s k = some (r, k') → k' = k := by
  intro fuel
  induction fuel with
  | zero => intro s k r k' _ h; simp [runFetch] at h
  | succ n ih =>
    intro s k r k' hdef h
    rw [runFetch] at h
    cases hstep : fetchStep did server s with
    | inr res =>
      simp only [hstep] at h
      cases h
      rfl
    | inl s' =>
      simp only [hstep] at h
      have hcase := fetchStep_client_change did server s s' hstep
      have hs' : s'.client = .default := by
        rcases hcase with ⟨h1, _⟩ | ⟨h1, _⟩
        · rw [h1, hdef]
        · exact h1
      have hbeq : (s'.client == s.client) = true := by
        rw [hs', hdef]; rfl
      rw [hbeq] at h
      simp only [if_true] at h
      exact ih s' k r k' hs' h

/-- Along any completed run of the fetch loop the client switches at most
once. -/
lemma runFetch_count_le (did : String) (server : Server) :
    ∀ (fuel : Nat) (s : FetchState) (k : Nat) (r : LoopResult) (k' : Nat),
      runFetch did server fuel s k = some (r, k') → k' ≤ k + 1 := by
  intro fuel
  induction fuel with
  | zero => intro s k r k' h; simp [runFetch] at h
  | succ n ih =>
    intro s k r k' h
    rw [runFetch] at h
    cases hstep : fetchStep did server s with
    | inr res =>
      simp only [hstep] at h
      cases h
      exact Nat.le_succ k
    | inl s' =>
      simp only [hstep] at h
      rcases fetchStep_client_change did server s s' hstep with ⟨h1, _⟩ | ⟨h1, _, _, hne, _⟩
      · have hbeq : (s'.client == s.client) = true := by rw [h1]; exact beq_self_eq_true _
        rw [hbeq] at h
        simp only [if_true] at h
        exact ih s' k r k' h
      · have hbeq : (s'.client == s.client) = false := by
          rw [h1]
          cases hc : s.client with
          | default => exact absurd hc hne
          | custom u => rfl
        rw [hbeq] at h
        simp only [Bool.false_eq_true, if_false] at h
        have := runFetch_default_frozen did server n s' (k + 1) r k' h1 h
        omega

/-- Every write the trim step performs (when it does not crash) is a
newest-first truncation of the archive contents it was given. -/
lemma check_token_writes (w : World) (fn : String) (posts : List NormalizedPost)
    (handle : String) (res : String × List (String × List NormalizedPost))
    (hok : check_token_limit_and_offer_trim w fn posts handle = .ok res) :
    ∀ p ∈ res.2, ∃ nk, p.2 = posts.take nk := by
  intro p hp
  unfold check_token_limit_and_offer_trim at hok
  split at hok
  · cases hok
    simp at hp
  · split at hok
    · cases hok
      simp at hp
    · split at hok
      · exact Except.noConfusion hok
      · split at hok
        · exact Except.noConfusion hok
        · split at hok
          · exact Except.noConfusion hok
          · cases hok
            unfold trim_posts_and_reexport at hp
            simp only [List.mem_singleton] at hp
            exact ⟨_, by rw [hp]⟩
          · cases hok
            simp at hp

/-- Inversion of one `export_posts_to_json` call: it terminated with
status 1 before writing anything (resolution failure, discovery crash,
loop `sys.exit(1)`, or an empty final sequence); or it fetched a
non-empty sequence, wrote its descending sort as the main archive, and
then either the trim step returned (possibly adding its writes) or the
trim step crashed, exiting 1 with the archive already written. -/
lemma export_posts_cases (w : World) (fuel : Nat) (handle : String)
    (out : ExportOutcome) (ws : List (String × List NormalizedPost))
    (h : export_posts_to_json w fuel handle = some (out, ws)) :
    (out = .exited 1 ∧ ws = [])
    ∨ (∃ fetched : List NormalizedPost, fetched ≠ [] ∧
        ((∃ res, check_token_limit_and_offer_trim w (handle ++ "_posts_" ++ w.now ++ ".json")
              (sortByCreatedAtDesc fetched) handle = .ok res ∧
            out = .finished res.1 ∧
            ws = (handle ++ "_posts_" ++ w.now ++ ".json", sortByCreatedAtDesc fetched) :: res.2)
         ∨ (check_token_limit_and_offer_trim w (handle ++ "_posts_" ++ w.now ++ ".json")
              (sortByCreatedAtDesc fetched) handle = .error () ∧
            out = .exited 1 ∧
            ws = [(handle ++ "_posts_" ++ w.now ++ ".json", sortByCreatedAtDesc fetched)]))) := by
  unfold export_posts_to_json at h
  cases hres : w.resolveHandle handle with
  | error e =>
    simp only [hres] at h
    cases h
    exact .inl ⟨rfl, rfl⟩
  | ok repo_did =>
    simp only [hres] at h
    split at h
    · cases h
      exact .inl ⟨rfl, rfl⟩
    · split at h
      · exact Option.noConfusion h
      · cases h
        exact .inl ⟨rfl, rfl⟩
      · split at h
        · cases h
          exact .inl ⟨rfl, rfl⟩
        · next hcond =>
            have hfetched : ∀ posts : List NormalizedPost, posts.isEmpty = false →
                posts ≠ [] := by
              intro posts hempty hnil
              rw [hnil] at hempty
              simp at hempty
            split at h
            · next herr =>
                cases h
                refine .inr ⟨_, hfetched _ (by simpa using hcond), .inr ⟨?_, rfl, rfl⟩⟩
                exact herr
            · next res hok =>
                cases h
                exact .inr ⟨_, hfetched _ (by simpa using hcond),
                  .inl ⟨res, hok, rfl, rfl⟩⟩

/-- C1: during one run of the paginated fetch loop the hosting endpoint
changes at most once (the switch counter never exceeds one more than its
start); the first request error while a discovered non-default endpoint
is in use switches to the default client and re-enters the loop with the
cursor and accumulated posts preserved; a request error while already on
the default client terminates the process with `sys.exit(1)`. -/
theorem C1_endpoint_fallback_at_most_once (did : String) (server : Server) :
    (∀ (fuel : Nat) (s : FetchState) (k : Nat) (r : LoopResult) (k' : Nat),
        runFetch did server fuel s k = some (r, k') → k' ≤ k + 1)
    ∧ (∀ (s : FetchState) (u : String), s.client = Endpoint.custom u →
        optTruthy s.pds_endpoint = true → server s.client s.cursor = .error () →
        fetchStep did server s = .inl
          { client := .default, pds_endpoint := none, cursor := s.cursor,
            posts_fetched := s.posts_fetched, all_posts := s.all_posts })
    ∧ (∀ s : FetchState, s.client = Endpoint.default →
        server s.client s.cursor = .error () →
        fetchStep did server s = .inr (.exit1 "Error fetching posts")) := by
  refine ⟨runFetch_count_le did server, ?_, ?_⟩
  · intro s u hcl hpds herr
    simp only [fetchStep, herr, handleFetchError]
    have hcond : (optTruthy s.pds_endpoint && !(s.client == Endpoint.default)) = true := by
      rw [hpds, hcl]; rfl
    rw [hcond]
    simp
  · intro s hcl herr
    simp only [fetchStep, herr, handleFetchError]
    have hcond : (optTruthy s.pds_endpoint && !(s.client == Endpoint.default)) = false := by
      rw [hcl]; simp
    rw [hcond]
    simp

/-- A mock server whose discovered endpoint always fails and whose
default endpoint serves one post and ends pagination. -/
def cServer1 : Server := fun ep _ =>
  match ep with
  | .custom _ => .error ()
  | .default => .ok
      { records := [{ value := { created_at := some "2024", text := some "hi", embed := none } }],
        cursor := none }

/-- A fetch state at the start of a run on a discovered endpoint. -/
def cState1 : FetchState :=
  { client := .custom "https://pds.example", pds_endpoint := some "https://pds.example",
    cursor := none, posts_fetched := 0, all_posts := [] }

theorem C1_fallback_witness :
    runFetch "did:plc:w" cServer1 3 cState1 0
        = some (.done [{ created_at := "2024", text := "hi", images := [] }], 1)
    ∧ 1 ≤ 0 + 1 :=
  ⟨by decide,
   (C1_endpoint_fallback_at_most_once "did:plc:w" cServer1).1 3 cState1 0
     (.done [{ created_at := "2024", text := "hi", images := [] }]) 1 (by decide)⟩

/-- C3: an empty first page (zero posts fetched so far) ends the loop
benignly (`break`) when a discovered truthy endpoint is in use, and
terminates the process with the actionable diagnostic and status 1 when
the default public endpoint is in use. -/
theorem C3_empty_first_page (did : String) (server : Server) (s : FetchState) (page : Page)
    (hsrv : server s.client s.cursor = .ok page) (hrec : page.records = [])
    (hfetched : s.posts_fetched = 0) :
    (optTruthy s.pds_endpoint = true → fetchStep did server s = .inr (.done s.all_posts))
    ∧ (optTruthy s.pds_endpoint = false →
        fetchStep did server s = .inr (.exit1 noPostsDiagnostic)) := by
  have hempty : (page.records.isEmpty && s.posts_fetched == 0) = true := by
    rw [hrec, hfetched]; rfl
  constructor
  · intro hp
    simp [fetchStep, hsrv, hempty, hp]
  · intro hp
    simp [fetchStep, hsrv, hempty, hp]

/-- A mock server that always returns an empty page. -/
def cServerEmpty : Server := fun _ _ => .ok { records := [], cursor := none }

/-- A first-page state on a discovered endpoint. -/
def cStateCustom3 : FetchState :=
  { client := .custom "https://pds.example", pds_endpoint := some "https://pds.example",
    cursor := none, posts_fetched := 0, all_posts := [] }

/-- A first-page state on the default public endpoint. -/
def cStateDefault3 : FetchState :=
  { client := .default, pds_endpoint := none,
    cursor := none, posts_fetched := 0, all_posts := [] }

theorem C3_empty_first_page_witness :
    fetchStep "did:plc:w" cServerEmpty cStateCustom3 = .inr (.done [])
    ∧ fetchStep "did:plc:w" cServerEmpty cStateDefault3 = .inr (.exit1 noPostsDiagnostic) :=
  ⟨(C3_empty_first_page "did:plc:w" cServerEmpty cStateCustom3
      { records := [], cursor := none } rfl rfl rfl).1 rfl,
   (C3_empty_first_page "did:plc:w" cServerEmpty cStateDefault3
      { records := [], cursor := none } rfl rfl rfl).2 rfl⟩

/-- C10: any exception inside the fetch loop's `try` — a request error
or a failure normalizing a record (absent timestamp, text, or image
fields) — reaches the same handler: with a discovered endpoint in use it
triggers the one-time fallback to the default client, otherwise it
terminates the process with status 1; a page whose first record is
malformed therefore behaves exactly like a failed request. -/
theorem C10_normalize_error_same_policy (did : String) (server : Server) (s : FetchState)
    (page : Page) (r0 : RawRecord) (rs : List RawRecord)
    (hsrv : server s.client s.cursor = .ok page) (hrec : page.records = r0 :: rs)
    (hbad : normalizeRecord did r0 = .error ()) :
    (optTruthy s.pds_endpoint = true → s.client ≠ Endpoint.default →
      fetchStep did server s = .inl
        { client := .default, pds_endpoint := none, cursor := s.cursor,
          posts_fetched := s.posts_fetched, all_posts := s.all_posts })
    ∧ (s.client = Endpoint.default →
        fetchStep did server s = .inr (.exit1 "Error fetching posts"))
    ∧ (∀ t emb, normalizeRecord did ⟨⟨none, t, emb⟩⟩ = .error ())
    ∧ (∀ c emb, normalizeRecord did ⟨⟨some c, none, emb⟩⟩ = .error ())
    ∧ (∀ c t alt tl, normalizeRecord did
        ⟨⟨some c, some t, some ⟨"app.bsky.embed.images", ⟨none, alt⟩ :: tl⟩⟩⟩ = .error ()) := by
  have hne : (page.records.isEmpty && s.posts_fetched == 0) = false := by
    rw [hrec]; rfl
  have happ : appendRecords did s.all_posts page.records = .error s.all_posts := by
    rw [hrec]
    simp only [appendRecords, hbad]
  refine ⟨?_, ?_, ?_, ?_, ?_⟩
  · intro hp hcl
    simp only [fetchStep, hsrv, hne, Bool.false_eq_true, if_false, happ, handleFetchError]
    have hcond : (optTruthy s.pds_endpoint && !(s.client == Endpoint.default)) = true := by
      rw [hp]
      cases hc : s.client with
      | default => exact absurd hc hcl
      | custom u => rfl
    rw [hcond]
    simp
  · intro hcl
    simp only [fetchStep, hsrv, hne, Bool.false_eq_true, if_false, happ, handleFetchError]
    have hcond : (optTruthy s.pds_endpoint && !(s.client == Endpoint.default)) = false := by
      rw [hcl]; simp
    rw [hcond]
    simp
  · intro t emb; rfl
  · intro c emb; rfl
  · intro c t alt tl; rfl

/-- A mock server returning a page whose only record lacks a text
field. -/
def cServerBadRecord : Server := fun _ _ =>
  .ok { records := [{ value := { created_at := some "2024", text := none, embed := none } }],
        cursor := none }

theorem C10_normalize_error_witness :
    fetchStep "did:plc:w" cServerBadRecord cStateCustom3 = .inl
      { client := .default, pds_endpoint := none, cursor := none,
        posts_fetched := 0, all_posts := [] }
    ∧ fetchStep "did:plc:w" cServerBadRecord cStateDefault3
        = .inr (.exit1 "Error fetching posts") :=
  ⟨(C10_normalize_error_same_policy "did:plc:w" cServerBadRecord cStateCustom3
      { records := [{ value := { created_at := some "2024", text := none, embed := none } }],
        cursor := none }
      { value := { created_at := some "2024", text := none, embed := none } } [] rfl rfl rfl).1
      rfl (by decide),
   (C10_normalize_error_same_policy "did:plc:w" cServerBadRecord cStateDefault3
      { records := [{ value := { created_at := some "2024", text := none, embed := none } }],
        cursor := none }
      { value := { created_at := some "2024", text := none, embed := none } } [] rfl rfl rfl).2.1
      rfl⟩

/-- C2 counterexample: in a document whose first matching service entry
(`id` ending in `#atproto_pds`) lacks a usable URL, extraction does not
return nothing — it continues the scan and returns the endpoint of a
later matching entry, contradicting the claim that the result is the
first matching entry's URL and that a first matching entry without a
usable URL yields nothing. -/
theorem C2_counterexample :
    get_pds_endpoint_from_did_doc (Json.obj [("service", Json.arr
      [Json.obj [("id", Json.str "a#atproto_pds")],
       Json.obj [("id", Json.str "b#atproto_pds"),
                 ("serviceEndpoint", Json.str "https://pds.example/")]])])
      = .ok (some "https://pds.example") := rfl

/-- C2 (amended): extraction returns nothing on a falsy document; on a
document whose chosen service list (field `service` or `services`) is an
array of key-value entries it returns the endpoint URL, trailing slashes
stripped, of the first entry that matches (id ending in `#atproto_pds`
or type equal to `AtprotoPersonalDataServer`) *and* has a usable URL,
and nothing when no matching entry has one; any returned URL has no
trailing slash. -/
theorem C2_first_usable_matching_entry (did_doc : Json) :
    (truthy did_doc = false → get_pds_endpoint_from_did_doc did_doc = .ok none)
    ∧ (∀ fields elems, did_doc = Json.obj fields →
        chosenServices fields = Json.arr elems → elems.all isObj = true →
        get_pds_endpoint_from_did_doc did_doc = .ok (specFirstUsable (elems.map toFields)))
    ∧ (∀ r, get_pds_endpoint_from_did_doc did_doc = .ok (some r) →
        r.data.getLast? ≠ some '/') := by
  refine ⟨?_, ?_, ?_⟩
  · intro hf
    simp [get_pds_endpoint_from_did_doc, hf]
  · intro fields elems hdoc hchosen hall
    subst hdoc
    by_cases ht : truthy (Json.obj fields) = false
    · have hfields : fields = [] := by
        simp [truthy, List.isEmpty_iff] at ht
        exact ht
      subst hfields
      have helems : elems = [] := by
        simp [chosenServices, List.lookup] at hchosen
        exact hchosen
      subst helems
      simp [get_pds_endpoint_from_did_doc, truthy, specFirstUsable]
    · rw [Bool.not_eq_false] at ht
      simp only [get_pds_endpoint_from_did_doc, ht]
      simp only [Bool.true_eq_false, if_false, hchosen, iterElems]
      exact scanServices_wf elems hall
  · intro r h
    simp only [get_pds_endpoint_from_did_doc] at h
    split at h
    · exact absurd h (by simp)
    · split at h
      · split at h
        · exact absurd h (by simp)
        · obtain ⟨e, he⟩ := scanServices_some_rstrip _ r h
          rw [he]
          exact rstripSlash_no_trailing e
      · exact absurd h (by simp)

/-- A well-formed document: one matching entry without a URL, then a
matching entry with one. -/
def cDoc2 : Json :=
  Json.obj [("service", Json.arr
    [Json.obj [("id", Json.str "a#atproto_pds")],
     Json.obj [("id", Json.str "b#atproto_pds"),
               ("serviceEndpoint", Json.str "https://pds.example/")]])]

/-- The entries of `cDoc2`. -/
def cElems2 : List Json :=
  [Json.obj [("id", Json.str "a#atproto_pds")],
   Json.obj [("id", Json.str "b#atproto_pds"),
             ("serviceEndpoint", Json.str "https://pds.example/")]]

theorem C2_extraction_witness :
    get_pds_endpoint_from_did_doc cDoc2 = .ok (specFirstUsable (cElems2.map toFields))
    ∧ "https://pds.example".data.getLast? ≠ some '/' :=
  ⟨(C2_first_usable_matching_entry cDoc2).2.1
      [("service", Json.arr cElems2)] cElems2 rfl rfl (by decide),
   (C2_first_usable_matching_entry cDoc2).2.2 "https://pds.example" rfl⟩

/-- C8 counterexample: extraction is not total on every identity
document (key-value mapping): a document whose service list contains a
non-mapping entry raises `AttributeError` at `svc.get` instead of
yielding the no-result value. -/
theorem C8_counterexample :
    get_pds_endpoint_from_did_doc (Json.obj [("service", Json.arr [Json.str "x"])])
      = .error () := rfl

/-- C8 (amended): the DID-document fetch never raises — any network or
HTTP error during the fetch and any identifier with an unrecognized
scheme yield the no-result value — and endpoint extraction yields a
value (never raises) on falsy documents and on documents whose chosen
service list is an array of key-value entries; totality fails only for
service lists containing non-mapping entries. -/
theorem C8_discovery_total_on_wellformed (http : String → Except Unit Json) (did : String) :
    (pyStartsWith did "did:plc:" = false → pyStartsWith did "did:web:" = false →
      fetch_did_document http did = none)
    ∧ ((∀ url, http url = .error ()) → fetch_did_document http did = none)
    ∧ (∀ doc : Json, truthy doc = false → get_pds_endpoint_from_did_doc doc = .ok none)
    ∧ (∀ (fields : List (String × Json)) (elems : List Json),
        chosenServices fields = Json.arr elems → elems.all isObj = true →
        ∃ res, get_pds_endpoint_from_did_doc (Json.obj fields) = .ok res) := by
  refine ⟨?_, ?_, ?_, ?_⟩
  · intro hplc hweb
    simp [fetch_did_document, hplc, hweb]
  · intro herr
    unfold fetch_did_document
    by_cases hplc : pyStartsWith did "did:plc:" = true
    · simp [hplc, herr ("https://plc.directory/" ++ did)]
    · by_cases hweb : pyStartsWith did "did:web:" = true
      · simp [hplc, hweb, herr (didWebUrl did)]
      · simp [hplc, hweb]
  · intro doc hf
    simp [get_pds_endpoint_from_did_doc, hf]
  · intro fields elems hchosen hall
    by_cases ht : truthy (Json.obj fields) = false
    · exact ⟨none, by simp [get_pds_endpoint_from_did_doc, ht]⟩
    · rw [Bool.not_eq_false] at ht
      refine ⟨specFirstUsable (elems.map toFields), ?_⟩
      simp only [get_pds_endpoint_from_did_doc, ht]
      simp only [Bool.true_eq_false, if_false, hchosen, iterElems]
      exact scanServices_wf elems hall

/-- An HTTP oracle on which every request raises a request error. -/
def cHttpFail : String → Except Unit Json := fun _ => .error ()

theorem C8_discovery_witness :
    fetch_did_document cHttpFail "did:plc:abc123" = none
    ∧ fetch_did_document cHttpFail "did:key:zQ3sh" = none
    ∧ get_pds_endpoint_from_did_doc Json.null = .ok none
    ∧ ∃ res, get_pds_endpoint_from_did_doc
        (Json.obj [("service", Json.arr [Json.obj [("id", Json.str "nope")]])]) = .ok res :=
  ⟨(C8_discovery_total_on_wellformed cHttpFail "did:plc:abc123").2.1 (fun _ => rfl),
   (C8_discovery_total_on_wellformed cHttpFail "did:key:zQ3sh").1 rfl rfl,
   (C8_discovery_total_on_wellformed cHttpFail "did:key:zQ3sh").2.2.1 Json.null rfl,
   (C8_discovery_total_on_wellformed cHttpFail "did:key:zQ3sh").2.2.2
     [("service", Json.arr [Json.obj [("id", Json.str "nope")]])]
     [Json.obj [("id", Json.str "nope")]] rfl (by decide)⟩

/-- C9: for every `did:web` identifier, the well-known URL is derived by
taking the text after the `did:web:` prefix, converting every colon to a
slash, and appending the fixed path; the fetch queries exactly that URL
over HTTPS. -/
theorem C9_did_web_url (rest : String) (http : String → Except Unit Json) :
    didWebUrl ("did:web:" ++ rest)
      = "https://" ++ colonsToSlashes rest ++ "/.well-known/did.json"
    ∧ fetch_did_document http ("did:web:" ++ rest)
      = (match http ("https://" ++ colonsToSlashes rest ++ "/.well-known/did.json") with
         | .ok j => some j
         | .error _ => none) := by
  have hdata : ("did:web:" ++ rest).data = "did:web:".data ++ rest.data := rfl
  have hplc : pyStartsWith ("did:web:" ++ rest) "did:plc:" = false := by
    show ("did:plc:".data.isPrefixOf (("did:web:" ++ rest).data)) = false
    rw [hdata]
    simp [List.isPrefixOf]
  have hweb : pyStartsWith ("did:web:" ++ rest) "did:web:" = true := by
    show ("did:web:".data.isPrefixOf (("did:web:" ++ rest).data)) = true
    rw [hdata]
    simp [List.isPrefixOf]
  have hsplit : pySplit2Tail ("did:web:" ++ rest) = some rest := by
    rw [pySplit2Tail, hdata]
    simp [splitOnce]
  have hurl : didWebUrl ("did:web:" ++ rest)
      = "https://" ++ colonsToSlashes rest ++ "/.well-known/did.json" := by
    rw [didWebUrl, hsplit]
    rfl
  refine ⟨hurl, ?_⟩
  simp only [fetch_did_document, hplc, hweb, hurl, Bool.false_eq_true, if_false, if_true]

/-- C4 counterexample: the trimmer truncates (`int(...)`), it does not
take a ceiling: at token count 960,000 over 96 posts the exact value of
`excess / avg * 1.1` is `1.1`, the code computes `to_remove = 1`
(keeping 95), while the claimed ceiling formula yields 2 (keeping 94). -/
theorem C4_counterexample :
    trimCalc 960000 96 = (1, 95)
    ∧ ⌈((960000 : ℚ) - 950000) / ((960000 / 96 : ℕ) : ℚ) * (11 / 10)⌉ = 2 := by
  constructor
  · decide
  · have h1 : ((960000 : ℚ) - 950000) / ((960000 / 96 : ℕ) : ℚ) * (11 / 10)
        = 11 / 10 := by norm_num
    rw [h1, Int.ceil_eq_iff]
    constructor <;> norm_num

/-- C4 (amended): when the token count exceeds 950,000 the trimmer
computes `avg_per_post` as integer division of the count by the number
of posts and `to_remove` as the *floor* (truncation, not ceiling) of
`(count - 950000) / avg_per_post * 1.1`, proposing to keep
`total_posts - to_remove` newest records; for 1,000,000 tokens over
10,000 posts this gives `to_remove = 550` and 9,450 posts kept (floor
and ceiling agree on that example). -/
theorem C4_trim_arithmetic (token_count total_posts : Nat)
    (hover : TOKEN_LIMIT < token_count) (_havg : 0 < token_count / total_posts) :
    (trimCalc token_count total_posts).1
      = ⌊((token_count : ℚ) - 950000) / ((token_count / total_posts : ℕ) : ℚ) * (11 / 10)⌋₊
    ∧ (trimCalc token_count total_posts).2
        = total_posts - (trimCalc token_count total_posts).1
    ∧ trimCalc 1000000 10000 = (550, 9450) := by
  have hsub : ((token_count - TOKEN_LIMIT : ℕ) : ℚ) = (token_count : ℚ) - 950000 := by
    rw [Nat.cast_sub (le_of_lt hover)]
    norm_num [TOKEN_LIMIT]
  have key : (token_count - TOKEN_LIMIT) * 11 / ((token_count / total_posts) * 10)
      = ⌊((token_count : ℚ) - 950000) / ((token_count / total_posts : ℕ) : ℚ) * (11 / 10)⌋₊ := by
    rw [← Nat.floor_div_eq_div (α := ℚ)]
    congr 1
    push_cast
    rw [hsub]
    ring
  exact ⟨key, rfl, by decide⟩

theorem C4_trim_witness :
    TOKEN_LIMIT < 1000000 ∧ 0 < 1000000 / 10000 ∧ trimCalc 1000000 10000 = (550, 9450) :=
  ⟨by decide, by decide,
   (C4_trim_arithmetic 1000000 10000 (by decide) (by decide)).2.2⟩

/-- C6: the archive sort orders `created_at` non-increasingly and is
stable (each timestamp class keeps its arrival order), and every file a
successful export writes is a newest-first truncation of that stable
descending sort of the fetched arrival-order sequence (the main archive
is the full sort, the optional trimmed file a prefix of it). -/
theorem C6_archive_sorted_stable :
    (∀ l : List NormalizedPost, List.Sorted descCreated (sortByCreatedAtDesc l))
    ∧ (∀ (l : List NormalizedPost) (k : String),
        (sortByCreatedAtDesc l).filter (fun p => p.created_at == k)
          = l.filter (fun p => p.created_at == k))
    ∧ (∀ (w : World) (fuel : Nat) (handle : String) (out : ExportOutcome)
        (ws : List (String × List NormalizedPost)) (fn : String)
        (posts : List NormalizedPost),
        export_posts_to_json w fuel handle = some (out, ws) → (fn, posts) ∈ ws →
        ∃ (l : List NormalizedPost) (n : Nat), posts = (sortByCreatedAtDesc l).take n) := by
  refine ⟨sorted_sortByCreatedAtDesc, fun l k => filter_sortByCreatedAtDesc k l, ?_⟩
  intro w fuel handle out ws fn posts h hmem
  rcases export_posts_cases w fuel handle out ws h with ⟨_, hws⟩ | ⟨fetched, _, hrest⟩
  · rw [hws] at hmem
    simp at hmem
  · rcases hrest with ⟨res, hok, _, hws⟩ | ⟨_, _, hws⟩
    · rw [hws] at hmem
      rcases List.mem_cons.mp hmem with heq | hmem2
      · refine ⟨fetched, (sortByCreatedAtDesc fetched).length, ?_⟩
        have hp : posts = sortByCreatedAtDesc fetched := congrArg Prod.snd heq
        rw [hp, List.take_length]
      · obtain ⟨nk, hnk⟩ := check_token_writes w _ _ handle res hok _ hmem2
        exact ⟨fetched, nk, hnk⟩
    · rw [hws] at hmem
      rcases List.mem_cons.mp hmem with heq | hmem2
      · refine ⟨fetched, (sortByCreatedAtDesc fetched).length, ?_⟩
        have hp : posts = sortByCreatedAtDesc fetched := congrArg Prod.snd heq
        rw [hp, List.take_length]
      · simp at hmem2

/-- The single post served by the demonstration world. -/
def demoPost : NormalizedPost := { created_at := "2024", text := "hi", images := [] }

/-- A fully successful world: the handle resolves, DID-document fetch
fails softly (default client in use), the server returns one post and
ends pagination, and the token estimate is under the limit. -/
def demoWorld : World :=
  { resolveHandle := fun _ => .ok "did:plc:demo"
    http := fun _ => .error ()
    server := fun _ _ => .ok
      { records := [{ value := { created_at := some "2024", text := some "hi", embed := none } }],
        cursor := none }
    now := "20240101_120000"
    tokenCount := fun _ => some 1000
    confirmTrim := some false }

/-- C5 (code bug): the `__main__` block calls `export_posts_to_json`
twice (source lines 300 and 303, the first result discarded), so one
invocation with a valid handle runs the whole export pipeline twice and
performs two archive-file writes, not one. -/
theorem C5_main_writes_two_archives :
    mainProgram demoWorld 4 ["export_posts.py", "alice.test"]
      = some (0, [("alice.test_posts_20240101_120000.json", [demoPost]),
                  ("alice.test_posts_20240101_120000.json", [demoPost])]) := by decide

theorem C6_sorted_stable_witness :
    ∃ (l : List NormalizedPost) (n : Nat),
      [demoPost] = (sortByCreatedAtDesc l).take n :=
  C6_archive_sorted_stable.2.2 demoWorld 4 "alice.test"
    (.finished "alice.test_posts_20240101_120000.json")
    [("alice.test_posts_20240101_120000.json", [demoPost])]
    "alice.test_posts_20240101_120000.json" [demoPost]
    (by decide) (by decide)
